import Mathlib

/-
Verification of the SkyRoam map-ingestion / collision / physics core.

The Rust source is embedded shallowly:
- machine floats (f32 / f64) are modelled as exact rationals; arithmetic,
  comparisons and `floor` are the idealized real operations.  Where IEEE-754
  special values matter (division by a zero norm producing NaN) the embedding
  makes the branch explicit and documents it at the definition.
- node ids (u64 / i64) are modelled as integers, way ids as naturals.
- fallible lookups return Option.

Names follow the Rust source (`is_ccw`, `get_cell`, ...); Rust's `end` field
is spelled `endp` because `end` is a Lean keyword.
-/

namespace SkyRoam

/-! ## Polygon Builder: node resolution (world.rs 174-182, map_loader.rs 161-176)

`World::generate` gathers points with `if let Some(pos) = node_map.get(node_id)
{ points.push(*pos) }` - a missing id is silently skipped - and then discards
the way only when `points.len() < 3`.

`load_chunks_from_osm_stream` instead sets `valid = false` and breaks out of
the resolution loop on the first missing id, and keeps the way only when
`valid && points.len() >= 3`. -/

/-- Point gathering of `World::generate`: each id that resolves contributes a
point, missing ids are skipped. -/
def gatherPointsSkip (lookup : ℤ → Option (ℚ × ℚ)) (ids : List ℤ) : List (ℚ × ℚ) :=
  ids.filterMap lookup

/-- Way discard test of `World::generate` (line 182): keep iff at least 3
points were gathered. -/
def worldDiscards (lookup : ℤ → Option (ℚ × ℚ)) (ids : List ℤ) : Bool :=
  (gatherPointsSkip lookup ids).length < 3

/-- Node resolution of `load_chunks_from_osm_stream`: the first missing id
invalidates the whole way (`valid = false; break`). -/
def resolveStrict (lookup : ℤ → Option (ℚ × ℚ)) : List ℤ → Option (List (ℚ × ℚ))
  | [] => some []
  | id :: rest =>
    match lookup id with
    | none => none
    | some p => (resolveStrict lookup rest).map (p :: ·)

/-- Way discard test of the streaming loader (line 176): keep iff `valid` and
at least 3 points. -/
def loaderDiscards (lookup : ℤ → Option (ℚ × ℚ)) (ids : List ℤ) : Bool :=
  match resolveStrict lookup ids with
  | none => true
  | some ps => ps.length < 3

/-! ## Winding normalization (world.rs 287-295 `is_ccw`, 184-185; map_loader.rs 177-184)

Both variants compute the same shoelace sum over consecutive wrapped edges and
reverse the points when it is positive (`is_ccw` returns `sum <= 0.0`; the
loader reverses when `sum > 0.0`). -/

/-- One edge's contribution to the shoelace sum: `(p2.x - p1.x) * (p2.y + p1.y)`. -/
def edgeTerm (p1 p2 : ℚ × ℚ) : ℚ := (p2.1 - p1.1) * (p2.2 + p1.2)

/-- The loop `for i in 0..pts.len() { sum += (p2.x - p1.x) * (p2.y + p1.y) }`
with `p2 = pts[(i + 1) % pts.len()]`. -/
def shoelace (pts : List (ℚ × ℚ)) : ℚ :=
  ∑ i ∈ Finset.range pts.length,
    edgeTerm (pts.getD i (0, 0)) (pts.getD ((i + 1) % pts.length) (0, 0))

/-- Function `is_ccw` of world.rs line 294: `sum <= 0.0`. -/
def is_ccw (pts : List (ℚ × ℚ)) : Bool := shoelace pts ≤ 0

/-- Normalization `if !is_ccw(&points) { points.reverse(); }` (world.rs 185); identically
`if sum > 0.0 { points.reverse(); }` (map_loader.rs 184). -/
def normalizeWinding (pts : List (ℚ × ℚ)) : List (ℚ × ℚ) :=
  if is_ccw pts then pts else pts.reverse

/-! ## Height resolution (world.rs 160-167; map_loader.rs 150-155)

`World::generate` tries the `height` tag (trimmed of non-numeric edge
characters, then parsed), then `building:levels` times `4.0`, then the
deterministic fallback `8.0 + (id % 100) as f32 * 0.3`.

`load_chunks_from_osm_stream` starts from the default `20.0` and overrides it
only when the `height` tag parses; it never consults `building:levels` and its
fallback does not depend on the way id. -/

/-- Rust `char::is_numeric`; the tag strings exercised here are ASCII, where
it coincides with `Char.isDigit`. -/
def isNumericChar (c : Char) : Bool := c.isDigit

/-- Rust `s.trim_matches(|c: char| !c.is_numeric() && c != '.')`: strips the
matching characters from both ends of the string. -/
def trimMatches (s : String) : String :=
  let p : Char → Bool := fun c => !(isNumericChar c) && c != '.'
  ⟨((s.data.dropWhile p).reverse.dropWhile p).reverse⟩

/-- Value of a digit string, most significant first. -/
def digitsValN (l : List Char) : ℕ := l.foldl (fun a c => a * 10 + (c.toNat - 48)) 0

/-- The fragment of Rust `str::parse::<f32>` that the height pipeline
exercises: an unsigned decimal literal (digits with at most one point, e.g.
"30", "12.5", "30.", ".5"). Rust's float grammar additionally accepts signs,
exponents and inf/nan spellings; those inputs are treated as parse failures
here, which matches every tag shape reachable through `trim_matches` except
exotic exponent forms. -/
def parseDecimal (s : String) : Option ℚ :=
  match s.data.splitOn '.' with
  | [a] => if a ≠ [] ∧ a.all Char.isDigit then some ((digitsValN a : ℕ) : ℚ) else none
  | [a, b] =>
    if (a ++ b) ≠ [] ∧ (a ++ b).all Char.isDigit then
      some (((digitsValN a : ℕ) : ℚ) + ((digitsValN b : ℕ) : ℚ) / 10 ^ b.length)
    else none
  | _ => none

/-- Tag lookup (`tags.get(..)` on the world path, `way.tags().find(..)` on the
loader path; the tag maps in play have distinct keys). -/
def lookupTag (tags : List (String × String)) (key : String) : Option String :=
  (tags.find? (fun kv => kv.1 == key)).map (·.2)

/-- Parsed `height` tag: `tags.get("height").and_then(|s| s.trim_matches(..).parse().ok())`. -/
def heightTagParsed (tags : List (String × String)) : Option ℚ :=
  (lookupTag tags "height").bind (fun s => parseDecimal (trimMatches s))

/-- Parsed `building:levels` tag: `tags.get("building:levels").and_then(|s| s.parse().ok())`. -/
def levelsTagParsed (tags : List (String × String)) : Option ℚ :=
  (lookupTag tags "building:levels").bind parseDecimal

/-- Height heuristics of `World::generate` (world.rs 161-167). -/
def worldHeight (wayId : ℕ) (tags : List (String × String)) : ℚ :=
  match heightTagParsed tags with
  | some h => h
  | none =>
    match levelsTagParsed tags with
    | some l => l * 4
    | none => 8 + ((wayId % 100 : ℕ) : ℚ) * 0.3

/-- Height heuristics of `load_chunks_from_osm_stream` (map_loader.rs 150-155):
`let mut height = 20.0`, overridden only by a parsed `height` tag. -/
def loaderHeight (tags : List (String × String)) : ℚ :=
  match lookupTag tags "height" with
  | some hs =>
    match parseDecimal (trimMatches hs) with
    | some h => h
    | none => 20
  | none => 20

/-! ## Physics integrator: sub-step loop and floor clamp (state.rs 286-351)

`GameState::update` clamps the frame delta to `[0.0001, 0.1]`, applies gravity
(`velocity.y -= 35.0 * dt`), then loops `while remaining_dt > 0.0` with
`step = remaining_dt.min(0.02)`, moving by `velocity * step`, resolving
collisions, clamping to the floor (`if next_pos.y < 1.8 { y = 1.8; vy = 0;
on_ground = true } else { on_ground = false }`) and decrementing
`remaining_dt -= step`.

The vertical coordinate evolves independently of walls and input: every
collision normal produced by `check_collision` has `y = 0` (state.rs 272 and
276), so neither the velocity slide `velocity -= normal * dot` nor the
push-out `next_pos += normal * (depth + eps)` changes `y` or `velocity.y`,
and horizontal input never touches `velocity.y`. The state below is therefore
the exact y-projection of the integrator for an arbitrary wall set. -/

/-- Rust `f64::clamp(lo, hi)`. -/
def clampQ (x lo hi : ℚ) : ℚ := max lo (min x hi)

/-- One pass of the sub-step budget accounting: `remaining -= remaining.min(0.02)`. -/
def stepOnce (r : ℚ) : ℚ := r - min r 0.02

/-- The y-projection of the player state: `camera.eye.y`, `velocity.y`,
`on_ground`. -/
structure PlayerY where
  y : ℚ
  vy : ℚ
  onGround : Bool
deriving DecidableEq

/-- One physics sub-step's effect on the y-state (state.rs 323 and 341-347):
move by `vy * step`, then the floor clamp. -/
def substepY (p : PlayerY) (step : ℚ) : PlayerY :=
  let ny := p.y + p.vy * step
  if ny < 1.8 then { y := 1.8, vy := 0, onGround := true }
  else { y := ny, vy := p.vy, onGround := false }

/-- The `while remaining_dt > 0.0` loop (state.rs 319-351), y-projection.
The fuel argument 5 given by `tickY` is exact: the clamped delta is at most
0.1 = 5 x 0.02, so the loop guard fails within 5 iterations
(`iterate_stepOnce_zero`). -/
def runSubstepsY : ℕ → ℚ → PlayerY → PlayerY
  | 0, _, p => p
  | fuel + 1, r, p =>
    if 0 < r then
      runSubstepsY fuel (r - min r 0.02) (substepY p (min r 0.02))
    else p

/-- One full `GameState::update` tick, y-projection, with no jump input
(the claim's `no other forces`): clamp the delta, apply gravity, run the
sub-step loop. -/
def tickY (dtr : ℚ) (p : PlayerY) : PlayerY :=
  runSubstepsY 5 (clampQ dtr 0.0001 0.1)
    { y := p.y, vy := p.vy - 35 * clampQ dtr 0.0001 0.1, onGround := p.onGround }

/-! ## Mesh Builder (map_loader.rs 236-286 `build_chunk_geometry`; world.rs 203-238)

Vertices carry position, normal and color (vertex.rs). The source normalizes
wall normals with `glam::Vec3::new(edge.y, 0.0, -edge.x).normalize()`; the
embedding stores the pre-normalization vector, because dividing by the
(irrational) Euclidean length leaves every component's finiteness and sign
unchanged when the vector is nonzero, and glam's normalize yields non-finite
(NaN) components exactly when the input is the zero vector. -/

/-- Mesh vertex (vertex.rs). The `normal` field stores the vector handed to
`normalize()`; it is nonzero iff the source's normalized normal is finite. -/
structure Vertex where
  position : ℚ × ℚ × ℚ
  normal : ℚ × ℚ × ℚ
  color : ℚ × ℚ × ℚ
deriving DecidableEq

/-- world.rs `WallCollider`; the Rust field `end` is spelled `endp`. -/
structure WallCollider where
  start : ℚ × ℚ
  endp : ℚ × ℚ
  height : ℚ
  min_x : ℚ
  max_x : ℚ
  min_z : ℚ
  max_z : ℚ
deriving DecidableEq

/-- map_loader.rs `RawBuilding`. -/
structure RawBuilding where
  points : List (ℚ × ℚ)
  height : ℚ
  color : ℚ × ℚ × ℚ

/-- Modelled from the spec: the roof triangulation is done by the external
`earcutr` crate (not part of this repository); the spec prescribes
"ear-clipping triangulation (2D projection x,z) to produce a fan of
triangles". Below is standard ear clipping over exact rationals: orient the
index ring counter-clockwise, then repeatedly clip a convex vertex whose
ear triangle contains no other ring vertex. -/
def cross2 (o a b : ℚ × ℚ) : ℚ :=
  (a.1 - o.1) * (b.2 - o.2) - (a.2 - o.2) * (b.1 - o.1)

/-- Point-in-triangle test (boundary inclusive) for a counter-clockwise
triangle, used to block non-ear vertices. -/
def inTri (a b c p : ℚ × ℚ) : Bool :=
  (0 ≤ cross2 a b p) && (0 ≤ cross2 b c p) && (0 ≤ cross2 c a p)

/-- The polygon point referenced by ring position k. -/
def ringPt (pts : List (ℚ × ℚ)) (ring : List ℕ) (k : ℕ) : ℚ × ℚ :=
  pts.getD (ring.getD k 0) (0, 0)

/-- Ring position k is an ear: convex corner, no other ring vertex inside. -/
def isEar (pts : List (ℚ × ℚ)) (ring : List ℕ) (k : ℕ) : Bool :=
  let n := ring.length
  let a := ringPt pts ring ((k + n - 1) % n)
  let b := ringPt pts ring k
  let c := ringPt pts ring ((k + 1) % n)
  (0 < cross2 a b c) &&
  ((List.range n).all (fun j =>
    (j = (k + n - 1) % n) || (j = k) || (j = (k + 1) % n) ||
    !(inTri a b c (ringPt pts ring j))))

/-- First ear position in the current ring, scanned in order. -/
def findEar (pts : List (ℚ × ℚ)) (ring : List ℕ) : Option ℕ :=
  (List.range ring.length).find? (isEar pts ring)

/-- Clip ears until a final triangle remains; the fuel argument (the initial
point count) bounds the recursion, one clipped vertex per step. -/
def earClipLoop (pts : List (ℚ × ℚ)) : ℕ → List ℕ → List ℕ
  | 0, _ => []
  | fuel + 1, ring =>
    if ring.length < 3 then []
    else if ring.length = 3 then [ring.getD 0 0, ring.getD 1 0, ring.getD 2 0]
    else
      match findEar pts ring with
      | some k =>
        let n := ring.length
        [ring.getD ((k + n - 1) % n) 0, ring.getD k 0, ring.getD ((k + 1) % n) 0]
          ++ earClipLoop pts fuel (ring.eraseIdx k)
      | none => []

/-- Ear-clipping triangulation: flat list of vertex indices, 3 per triangle.
The caller's polygons are winding-normalized (shoelace sum non-positive, i.e.
counter-clockwise); a clockwise ring is reversed first, as earcut does
internally. -/
def earcut (pts : List (ℚ × ℚ)) : List ℕ :=
  let idx := List.range pts.length
  let ring := if shoelace pts ≤ 0 then idx else idx.reverse
  earClipLoop pts pts.length ring

/-- Roof emission (map_loader.rs 253-260): one vertex per footprint point at
roof height with the up normal, indices `base_idx + t` from the
triangulation. In the source the roof is skipped when `earcut` returns `Err`;
the model's triangulation is total, so roofs are always emitted. -/
def roofPart (b : RawBuilding) (vbase : ℕ) : List Vertex × List ℕ :=
  (b.points.map (fun p =>
     { position := (p.1, b.height, p.2), normal := (0, 1, 0), color := b.color }),
   (earcut b.points).map (fun t => vbase + t))

/-- One iteration of the wall loop of `build_chunk_geometry`
(map_loader.rs 262-283): wrapping edge (points[j], points[(j+1) % len]),
skipped when both coordinate deltas are below 0.01; otherwise emit the quad's
4 vertices and 6 indices and the `WallCollider` padded by
`config::WALL_THICKNESS` (0.5). -/
def wallStep (b : RawBuilding) (vbase : ℕ)
    (acc : List Vertex × List ℕ × List WallCollider) (j : ℕ) :
    List Vertex × List ℕ × List WallCollider :=
  let n := b.points.length
  let p1 := b.points.getD j (0, 0)
  let p2 := b.points.getD ((j + 1) % n) (0, 0)
  if |p1.1 - p2.1| < 1/100 ∧ |p1.2 - p2.2| < 1/100 then acc
  else
    let nrm : ℚ × ℚ × ℚ := (p2.2 - p1.2, 0, -(p2.1 - p1.1))
    let base := vbase + acc.1.length
    (acc.1 ++
       [{ position := (p1.1, 0, p1.2), normal := nrm, color := b.color },
        { position := (p2.1, 0, p2.2), normal := nrm, color := b.color },
        { position := (p2.1, b.height, p2.2), normal := nrm, color := b.color },
        { position := (p1.1, b.height, p1.2), normal := nrm, color := b.color }],
     acc.2.1 ++ [base, base + 1, base + 2, base, base + 2, base + 3],
     acc.2.2 ++
       [{ start := p1, endp := p2, height := b.height,
          min_x := min p1.1 p2.1 - 1/2, max_x := max p1.1 p2.1 + 1/2,
          min_z := min p1.2 p2.2 - 1/2, max_z := max p1.2 p2.2 + 1/2 }])

/-- The wall loop `for j in 0..b.points.len()` of `build_chunk_geometry`. -/
def wallPart (b : RawBuilding) (vbase : ℕ) : List Vertex × List ℕ × List WallCollider :=
  (List.range b.points.length).foldl (wallStep b vbase) ([], [], [])

/-- One building's contribution to `build_chunk_geometry`: roof then walls
(`vbase` is the chunk's vertex count before this building). -/
def buildingGeometry (b : RawBuilding) (vbase : ℕ) :
    List Vertex × List ℕ × List WallCollider :=
  let roof := roofPart b vbase
  let wall := wallPart b (vbase + roof.1.length)
  (roof.1 ++ wall.1, roof.2 ++ wall.2.1, wall.2.2)

/-- One iteration of the wall loop of `World::generate` (world.rs 216-238):
non-wrapping edge (points[j], points[j+1]), NO degenerate-edge check; the
collider is inserted into the global collision grid with the same padding. -/
def worldWallStep (b : RawBuilding) (vbase : ℕ)
    (acc : List Vertex × List ℕ × List WallCollider) (j : ℕ) :
    List Vertex × List ℕ × List WallCollider :=
  let p1 := b.points.getD j (0, 0)
  let p2 := b.points.getD (j + 1) (0, 0)
  let nrm : ℚ × ℚ × ℚ := (p2.2 - p1.2, 0, -(p2.1 - p1.1))
  let base := vbase + acc.1.length
  (acc.1 ++
     [{ position := (p1.1, 0, p1.2), normal := nrm, color := b.color },
      { position := (p2.1, 0, p2.2), normal := nrm, color := b.color },
      { position := (p2.1, b.height, p2.2), normal := nrm, color := b.color },
      { position := (p1.1, b.height, p1.2), normal := nrm, color := b.color }],
   acc.2.1 ++ [base, base + 1, base + 2, base, base + 2, base + 3],
   acc.2.2 ++
     [{ start := p1, endp := p2, height := b.height,
        min_x := min p1.1 p2.1 - 1/2, max_x := max p1.1 p2.1 + 1/2,
        min_z := min p1.2 p2.2 - 1/2, max_z := max p1.2 p2.2 + 1/2 }])

/-- The wall loop `for j in 0..points.len() - 1` of `World::generate`. -/
def worldWallPart (b : RawBuilding) (vbase : ℕ) :
    List Vertex × List ℕ × List WallCollider :=
  (List.range (b.points.length - 1)).foldl (worldWallStep b vbase) ([], [], [])

/-- config.rs: `WORLD_SIZE = 10000.0`. -/
def WORLD_SIZE : ℚ := 10000

/-- config.rs: `CHUNK_SIZE = WORLD_SIZE / CHUNKS_AXIS` with 16 chunks per axis. -/
def CHUNK_SIZE : ℚ := WORLD_SIZE / 16

/-- map_loader.rs / world.rs `ChunkData`: the unit of streaming. -/
structure ChunkData where
  vertices : List Vertex
  indices : List ℕ
  walls : List WallCollider
  coord : ℤ × ℤ
deriving DecidableEq

/-- Function `build_chunk_geometry` (map_loader.rs 236-286): the chunk ground quad
(4 vertices at y = -0.1, 6 indices), then each building's roof and walls. -/
def build_chunk_geometry (buildings : List RawBuilding) (coord : ℤ × ℤ) : ChunkData :=
  let cx : ℚ := (coord.1 : ℚ) * CHUNK_SIZE - WORLD_SIZE / 2
  let cz : ℚ := (coord.2 : ℚ) * CHUNK_SIZE - WORLD_SIZE / 2
  let s := CHUNK_SIZE
  let gcol : ℚ × ℚ × ℚ := (1/20, 1/20, 1/20)
  let gn : ℚ × ℚ × ℚ := (0, 1, 0)
  let verts0 : List Vertex :=
    [{ position := (cx, -(1/10), cz), normal := gn, color := gcol },
     { position := (cx + s, -(1/10), cz), normal := gn, color := gcol },
     { position := (cx + s, -(1/10), cz + s), normal := gn, color := gcol },
     { position := (cx, -(1/10), cz + s), normal := gn, color := gcol }]
  let inds0 : List ℕ := [0, 1, 2, 0, 2, 3]
  let res := buildings.foldl (fun acc b =>
    let g := buildingGeometry b acc.1.length
    (acc.1 ++ g.1, acc.2.1 ++ g.2.1, acc.2.2 ++ g.2.2)) (verts0, inds0, ([] : List WallCollider))
  { vertices := res.1, indices := res.2.1, walls := res.2.2, coord := coord }

/-- The claim's synthetic footprint: 4 nodes forming a square. Its shoelace
sum is -200, so winding normalization keeps the order. -/
def squarePts : List (ℚ × ℚ) := [(0, 0), (10, 0), (10, 10), (0, 10)]

/-- The synthetic square way tagged `building=yes, height=30`: the parsed
height tag yields 30; the color is the deterministic grey for way id 1
(`0.15 + (1 % 100) / 100 * 0.20`). -/
def squareBuilding : RawBuilding :=
  { points := squarePts, height := 30, color := (19/125, 19/125, 19/125) }

/-! ## C7: degenerate-edge handling. -/

/-- The wall's defining edge is non-degenerate at the source's 0.01
threshold. -/
def wallOk (w : WallCollider) : Prop :=
  ¬(|w.start.1 - w.endp.1| < 1/100 ∧ |w.start.2 - w.endp.2| < 1/100)

/-- The stored (pre-normalization) normal is nonzero, i.e. the normalized
normal of the source is finite. -/
def vertexNormalOk (v : Vertex) : Prop := v.normal ≠ (0, 0, 0)

/-- A concrete right-triangle footprint used by the C7 witness. -/
def triBuilding : RawBuilding :=
  { points := [(0, 0), (3, 0), (0, 3)], height := 5, color := (1/5, 1/5, 1/5) }

/-- A footprint whose first two points coincide (reachable: a way may
reference the same node twice in a row, or two nodes may project to the same
f32 coordinates). -/
def degenerateBuilding : RawBuilding :=
  { points := [(0, 0), (0, 0), (3, 0)], height := 5, color := (1/5, 1/5, 1/5) }

/-- Default values used for `getD` in counterexample statements. -/
def defaultVertex : Vertex :=
  { position := (0, 0, 0), normal := (1, 1, 1), color := (0, 0, 0) }

def defaultWall : WallCollider :=
  { start := (0, 0), endp := (1, 1), height := 0,
    min_x := 0, max_x := 0, min_z := 0, max_z := 0 }

/-! ## Frustum culling (camera.rs 79-182)

`Plane::new` stores `normal / length` and `w / length` with
`length = sqrt(x^2+y^2+z^2)`. The embedding keeps the raw coefficients:
dividing by a positive length changes no comparison verdict below, and when
the length is zero the source computes `0.0 / 0.0 = NaN`, for which every
`>=` and `<` comparison is false - the explicit `lenSq = 0` branches encode
that IEEE behavior. -/

structure Plane where
  x : ℚ
  y : ℚ
  z : ℚ
  w : ℚ
deriving DecidableEq

/-- Squared length of the raw normal. -/
def Plane.lenSq (p : Plane) : ℚ := p.x ^ 2 + p.y ^ 2 + p.z ^ 2

/-- Test `plane.normal.x >= 0.0` after normalization: false for the NaN of a
zero-length normal, otherwise the sign of the raw x. -/
def Plane.nxNonneg (p : Plane) : Bool :=
  if p.lenSq = 0 then false else decide (0 ≤ p.x)

def Plane.nyNonneg (p : Plane) : Bool :=
  if p.lenSq = 0 then false else decide (0 ≤ p.y)

def Plane.nzNonneg (p : Plane) : Bool :=
  if p.lenSq = 0 then false else decide (0 ≤ p.z)

/-- Test `plane.distance_to_point(v) < 0.0` (camera.rs 97-99, 176): false for NaN
(zero-length normal), otherwise the sign of the un-normalized distance. -/
def Plane.behind (p : Plane) (vx vy vz : ℚ) : Bool :=
  if p.lenSq = 0 then false
  else decide (p.x * vx + p.y * vy + p.z * vz + p.w < 0)

structure Vec4 where
  x : ℚ
  y : ℚ
  z : ℚ
  w : ℚ
deriving DecidableEq

structure Mat4 where
  row0 : Vec4
  row1 : Vec4
  row2 : Vec4
  row3 : Vec4
deriving DecidableEq

structure Frustum where
  planes : List Plane
deriving DecidableEq

/-- Function `Frustum::from_mat4` (camera.rs 109-162): Gribb-Hartmann extraction of
the left, right, bottom, top, near and far planes from the matrix rows. -/
def Frustum.from_mat4 (m : Mat4) : Frustum :=
  { planes :=
    [⟨m.row3.x + m.row0.x, m.row3.y + m.row0.y, m.row3.z + m.row0.z, m.row3.w + m.row0.w⟩,
     ⟨m.row3.x - m.row0.x, m.row3.y - m.row0.y, m.row3.z - m.row0.z, m.row3.w - m.row0.w⟩,
     ⟨m.row3.x + m.row1.x, m.row3.y + m.row1.y, m.row3.z + m.row1.z, m.row3.w + m.row1.w⟩,
     ⟨m.row3.x - m.row1.x, m.row3.y - m.row1.y, m.row3.z - m.row1.z, m.row3.w - m.row1.w⟩,
     ⟨m.row3.x + m.row2.x, m.row3.y + m.row2.y, m.row3.z + m.row2.z, m.row3.w + m.row2.w⟩,
     ⟨m.row3.x - m.row2.x, m.row3.y - m.row2.y, m.row3.z - m.row2.z, m.row3.w - m.row2.w⟩] }

/-- Function `Frustum::intersects_aabb` (camera.rs 166-181): positive-vertex test; the
source's for-loop returns `false` on the first plane whose positive vertex is
behind it and `true` otherwise, which is the `all` of the negated tests. -/
def Frustum.intersects_aabb (f : Frustum) (mn mx : ℚ × ℚ × ℚ) : Bool :=
  f.planes.all (fun p =>
    let px := if p.nxNonneg then mx.1 else mn.1
    let py := if p.nyNonneg then mx.2.1 else mn.2.1
    let pz := if p.nzNonneg then mx.2.2 else mn.2.2
    !(p.behind px py pz))

/-- The degenerate all-zero view-projection matrix. -/
def zeroMat4 : Mat4 :=
  { row0 := ⟨0, 0, 0, 0⟩, row1 := ⟨0, 0, 0, 0⟩, row2 := ⟨0, 0, 0, 0⟩, row3 := ⟨0, 0, 0, 0⟩ }

/-! ## Streaming pipeline (main.rs 100-120 producer, 179-216 consumer)

The producer thread runs `load_chunks_from_osm_stream` with a callback that
sends `BatchLoaded` when a batch is present, `Progress` when the fraction is
positive, then always `Status`; after the function returns, the thread sends
exactly one `Done`. The `LoaderMessage::Done` constructor appears nowhere
else. -/

/-- main.rs `LoaderMessage` (the four-variant protocol the event loop
consumes). -/
inductive LoaderMessage where
  | status (s : String)
  | progress (p : ℚ)
  | batchLoaded (batch : List ChunkData)
  | done
deriving DecidableEq

/-- One callback invocation (main.rs 108-116). -/
def callbackMessages (batchOpt : Option (List ChunkData)) (progress : ℚ)
    (status : String) : List LoaderMessage :=
  (match batchOpt with
   | some batch => [LoaderMessage.batchLoaded batch]
   | none => []) ++
  (if 0 < progress then [LoaderMessage.progress progress] else []) ++
  [LoaderMessage.status status]

/-- The producer thread's complete ordered message sequence (main.rs
104-120): all callback emissions, then the single final `Done`. -/
def producerMessages (calls : List (Option (List ChunkData) × ℚ × String)) :
    List LoaderMessage :=
  (calls.flatMap (fun c => callbackMessages c.1 c.2.1 c.2.2)) ++ [LoaderMessage.done]

/-- The consumer-visible state of the event loop: whether the game state has
been created (`state.is_some()`), the loading flag, and the loading screen
fields. -/
structure ConsumerState where
  hasState : Bool
  loading : Bool
  chunkCount : ℕ
  progressView : ℚ
  statusText : String
deriving DecidableEq

/-- State before any message arrives (main.rs 122-123, 57). -/
def initialConsumer : ConsumerState :=
  { hasState := false, loading := true, chunkCount := 0, progressView := 0,
    statusText := "Initializing" }

/-- The consumer's per-message handler (main.rs 181-216): `Status` and
`Progress` update the loading screen; `BatchLoaded` creates the game state if
absent (clearing the loading phase) and ingests the batch; `Done` sets
progress 1.0, creates the game state if absent, and clears the loading
phase. -/
def processMessage (st : ConsumerState) (m : LoaderMessage) : ConsumerState :=
  match m with
  | .status s => { st with statusText := s }
  | .progress p => { st with progressView := p }
  | .batchLoaded batch =>
    let st1 := if st.hasState then st else { st with hasState := true, loading := false }
    { st1 with chunkCount := st1.chunkCount + batch.length }
  | .done =>
    { st with progressView := 1, statusText := "Done", hasState := true, loading := false }

/-! ## Collision grid (world.rs 34-83)

A flat vector of buckets indexed by `gz * width + gx`. `insert` computes the
floor cell range of the wall's padded AABB and pushes a clone of the wall
into every in-bounds bucket of that range; `get_cell` floors the query point
into a cell index and returns the bucket when in bounds. Rust's
`as i32` float-to-int cast is saturating; the embedding uses the exact
mathematical floor, which agrees on every value within i32 range. -/

structure CollisionGrid where
  cells : List (List WallCollider)
  width : ℕ
  height : ℕ
  cell_size : ℚ
  offset_x : ℚ
  offset_z : ℚ

/-- Constructor `CollisionGrid::new` (world.rs 44-54): `dim = ceil(world/cell) + 2`. -/
def CollisionGrid.new (world_size cell_size : ℚ) : CollisionGrid :=
  let dim := (⌈world_size / cell_size⌉).toNat + 2
  { cells := List.replicate (dim * dim) [], width := dim, height := dim,
    cell_size := cell_size, offset_x := world_size * (1/2), offset_z := world_size * (1/2) }

/-- Query `CollisionGrid::get_cell` (world.rs 57-66). -/
def CollisionGrid.get_cell (g : CollisionGrid) (x z : ℚ) : Option (List WallCollider) :=
  let gx : ℤ := ⌊(x + g.offset_x) / g.cell_size⌋
  let gz : ℤ := ⌊(z + g.offset_z) / g.cell_size⌋
  if 0 ≤ gx ∧ gx < (g.width : ℤ) ∧ 0 ≤ gz ∧ gz < (g.height : ℤ) then
    some (g.cells.getD (gz.toNat * g.width + gx.toNat) [])
  else none

/-- The body of `insert`'s nested loop (world.rs 76-79): push the wall into
the bucket when the cell is in bounds. -/
def insertAt (g : CollisionGrid) (w : WallCollider) (gx gz : ℤ) : CollisionGrid :=
  if 0 ≤ gx ∧ gx < (g.width : ℤ) ∧ 0 ≤ gz ∧ gz < (g.height : ℤ) then
    let idx := gz.toNat * g.width + gx.toNat
    { g with cells := g.cells.set idx (g.cells.getD idx [] ++ [w]) }
  else g

/-- The inclusive integer range `a..=b` of a Rust for-loop. -/
def intRange (a b : ℤ) : List ℤ :=
  (List.range (b - a + 1).toNat).map (fun k : ℕ => a + (k : ℤ))

/-- Insertion `CollisionGrid::insert` (world.rs 68-82): loop `gx` over the floored
min..=max x-cells, `gz` over the z-cells. -/
def CollisionGrid.insert (g : CollisionGrid) (w : WallCollider) : CollisionGrid :=
  let min_gx := ⌊(w.min_x + g.offset_x) / g.cell_size⌋
  let max_gx := ⌊(w.max_x + g.offset_x) / g.cell_size⌋
  let min_gz := ⌊(w.min_z + g.offset_z) / g.cell_size⌋
  let max_gz := ⌊(w.max_z + g.offset_z) / g.cell_size⌋
  (intRange min_gx max_gx).foldl (fun g1 gx =>
    (intRange min_gz max_gz).foldl (fun g2 gz => insertAt g2 w gx gz) g1) g

/-- A concrete wall for the C4 witness. -/
def witnessWall : WallCollider :=
  { start := (0, 0), endp := (1, 0), height := 3,
    min_x := -(1/2), max_x := 3/2, min_z := -(1/2), max_z := 1/2 }

/-! ## Lemmas and claim theorems -/

lemma resolveStrict_of_all_some (lookup : ℤ → Option (ℚ × ℚ)) (ids : List ℤ)
    (h : ∀ i ∈ ids, (lookup i).isSome) :
    ∃ ps, resolveStrict lookup ids = some ps ∧ ps.length = ids.length := by
  induction ids with
  | nil => exact ⟨[], rfl, rfl⟩
  | cons a rest ih =>
    have ha : (lookup a).isSome := h a (List.mem_cons_self a rest)
    obtain ⟨p, hp⟩ := Option.isSome_iff_exists.mp ha
    obtain ⟨ps, hps, hlen⟩ := ih (fun i hi => h i (List.mem_cons_of_mem a hi))
    refine ⟨p :: ps, ?_, ?_⟩
    · simp [resolveStrict, hp, hps]
    · simp [hlen]

lemma resolveStrict_of_missing (lookup : ℤ → Option (ℚ × ℚ)) (ids : List ℤ)
    (h : ∃ i ∈ ids, lookup i = none) :
    resolveStrict lookup ids = none := by
  induction ids with
  | nil => simp at h
  | cons a rest ih =>
    obtain ⟨i, hi, hnone⟩ := h
    rcases List.mem_cons.mp hi with rfl | hmem
    · simp [resolveStrict, hnone]
    · cases ha : lookup a with
      | none => simp [resolveStrict, ha]
      | some p => simp [resolveStrict, ha, ih ⟨i, hmem, hnone⟩]

lemma gatherPointsSkip_of_all_some (lookup : ℤ → Option (ℚ × ℚ)) (ids : List ℤ)
    (h : ∀ i ∈ ids, (lookup i).isSome) :
    (gatherPointsSkip lookup ids).length = ids.length := by
  induction ids with
  | nil => rfl
  | cons a rest ih =>
    have ha : (lookup a).isSome := h a (List.mem_cons_self a rest)
    obtain ⟨p, hp⟩ := Option.isSome_iff_exists.mp ha
    have hr := ih (fun i hi => h i (List.mem_cons_of_mem a hi))
    simp only [gatherPointsSkip, List.filterMap_cons, hp, List.length_cons] at hr ⊢
    omega

/-- C1. For every way, if any referenced node id is missing from the node
lookup, the streaming loader discards the entire way; ways whose ids all
resolve, giving at least 3 points, are discarded by neither path; and
`World::generate` instead skips missing ids, discarding exactly when fewer
than 3 ids resolve. -/
theorem way_discard_policy (lookup : ℤ → Option (ℚ × ℚ)) (ids : List ℤ) :
    ((∃ i ∈ ids, lookup i = none) → loaderDiscards lookup ids = true) ∧
    ((∀ i ∈ ids, (lookup i).isSome) → 3 ≤ ids.length →
      loaderDiscards lookup ids = false ∧ worldDiscards lookup ids = false) ∧
    (worldDiscards lookup ids = false ↔ 3 ≤ (gatherPointsSkip lookup ids).length) := by
  refine ⟨?_, ?_, ?_⟩
  · intro h
    simp [loaderDiscards, resolveStrict_of_missing lookup ids h]
  · intro hall hlen
    obtain ⟨ps, hps, hpslen⟩ := resolveStrict_of_all_some lookup ids hall
    have hg := gatherPointsSkip_of_all_some lookup ids hall
    constructor
    · have hld : loaderDiscards lookup ids = decide (ps.length < 3) := by
        unfold loaderDiscards
        rw [hps]
      rw [hld]
      simp only [decide_eq_false_iff_not, not_lt]
      omega
    · simp only [worldDiscards, decide_eq_false_iff_not, not_lt]
      omega
  · simp only [worldDiscards, decide_eq_false_iff_not, not_lt]

/-- Witness for `way_discard_policy`: a lookup defined on ids 1..3, a way
referencing exactly [1,2,3]. -/
theorem way_discard_policy_witness :
    loaderDiscards (fun i => if 1 ≤ i ∧ i ≤ 3 then some ((i : ℚ), 0) else none)
      [1, 2, 3] = false ∧
    worldDiscards (fun i => if 1 ≤ i ∧ i ≤ 3 then some ((i : ℚ), 0) else none)
      [1, 2, 3] = false := by
  exact (way_discard_policy _ [1, 2, 3]).2.1
    (by intro i hi; fin_cases hi <;> decide) (by decide)

/-- Counterexample to C1 as stated: a way referencing four ids of which one
(id 4) is missing is NOT discarded by `World::generate` - the missing id is
skipped and the remaining 3 points form a footprint. -/
theorem way_missing_id_kept_counterexample :
    (fun i => if 1 ≤ i ∧ i ≤ 3 then some ((i : ℚ), 0) else none) 4 = none ∧
    worldDiscards (fun i => if 1 ≤ i ∧ i ≤ 3 then some ((i : ℚ), 0) else none)
      [1, 2, 3, 4] = false := by
  constructor
  · decide
  · decide

lemma edgeTerm_swap (p q : ℚ × ℚ) : edgeTerm p q = - edgeTerm q p := by
  unfold edgeTerm; ring

lemma getD_reverse (l : List (ℚ × ℚ)) (i : ℕ) (h : i < l.length) :
    l.reverse.getD i (0, 0) = l.getD (l.length - 1 - i) (0, 0) := by
  rw [List.getD_eq_getElem?_getD, List.getD_eq_getElem?_getD, List.getElem?_reverse h]

/-- Reversing the point order negates the shoelace sum: the reversed list's
edge j is the original's edge (under the cyclic index involution) traversed
backwards, and each edge term is antisymmetric. -/
lemma shoelace_reverse (l : List (ℚ × ℚ)) : shoelace l.reverse = - shoelace l := by
  rcases Nat.eq_zero_or_pos l.length with h0 | hpos
  · have : l = [] := List.length_eq_zero.mp h0
    subst this; simp [shoelace]
  unfold shoelace
  rw [List.length_reverse, ← Finset.sum_neg_distrib]
  refine Finset.sum_nbij'
    (fun j => if j + 1 = l.length then l.length - 1 else l.length - 2 - j)
    (fun i => if i + 1 = l.length then l.length - 1 else l.length - 2 - i)
    ?_ ?_ ?_ ?_ ?_
  · intro a ha; simp only [Finset.mem_range] at ha ⊢; split_ifs <;> omega
  · intro a ha; simp only [Finset.mem_range] at ha ⊢; split_ifs <;> omega
  · intro a ha; simp only [Finset.mem_range] at ha; dsimp only; split_ifs <;> omega
  · intro a ha; simp only [Finset.mem_range] at ha; dsimp only; split_ifs <;> omega
  · intro j hj
    simp only [Finset.mem_range] at hj
    dsimp only
    by_cases hlast : j + 1 = l.length
    · rw [if_pos hlast]
      have hj0 : j = l.length - 1 := by omega
      have e2 : (l.length - 1 + 1) % l.length = 0 := by
        rw [Nat.sub_add_cancel hpos, Nat.mod_self]
      rw [hj0, e2]
      rw [getD_reverse l (l.length - 1) (by omega), getD_reverse l 0 (by omega)]
      have e1 : l.length - 1 - (l.length - 1) = 0 := by omega
      rw [e1]
      exact edgeTerm_swap _ _
    · rw [if_neg hlast]
      have hjlt : j + 1 < l.length := by omega
      have hm1 : (j + 1) % l.length = j + 1 := Nat.mod_eq_of_lt hjlt
      rw [hm1]
      rw [getD_reverse l j (by omega), getD_reverse l (j + 1) (by omega)]
      have e1 : l.length - 1 - j = l.length - 2 - j + 1 := by omega
      have e2 : l.length - 1 - (j + 1) = l.length - 2 - j := by omega
      have e3 : (l.length - 2 - j + 1) % l.length = l.length - 2 - j + 1 :=
        Nat.mod_eq_of_lt (by omega)
      rw [e1, e2, e3]
      exact edgeTerm_swap _ _

/-- C6. For point sequences with at least 3 points, winding normalization
reverses the order exactly when the shoelace sum is positive, the normalized
sequence's sum is non-positive, and normalization is idempotent. -/
theorem winding_normalization (pts : List (ℚ × ℚ)) (h3 : 3 ≤ pts.length) :
    (0 < shoelace pts → normalizeWinding pts = pts.reverse) ∧
    (shoelace pts ≤ 0 → normalizeWinding pts = pts) ∧
    shoelace (normalizeWinding pts) ≤ 0 ∧
    normalizeWinding (normalizeWinding pts) = normalizeWinding pts := by
  by_cases h : shoelace pts ≤ 0
  · have hn : normalizeWinding pts = pts := by
      simp [normalizeWinding, is_ccw, h]
    refine ⟨fun hc => absurd h (not_le.mpr hc), fun _ => hn, ?_, ?_⟩
    · rw [hn]; exact h
    · rw [hn, hn]
  · have hpos : 0 < shoelace pts := not_le.mp h
    have hn : normalizeWinding pts = pts.reverse := by
      simp [normalizeWinding, is_ccw, h]
    have hrev : shoelace pts.reverse ≤ 0 := by
      rw [shoelace_reverse]; linarith
    refine ⟨fun _ => hn, fun hc => absurd hc h, ?_, ?_⟩
    · rw [hn]; exact hrev
    · rw [hn]
      simp [normalizeWinding, is_ccw, hrev]

/-- Witness for `winding_normalization` at a concrete counter-clockwise
triangle (its shoelace sum is -1, so normalization keeps the order). -/
theorem winding_normalization_witness :
    normalizeWinding [(0, 0), (1, 0), (0, 1)] = [(0, 0), (1, 0), (0, 1)] ∧
    shoelace (normalizeWinding [(0, 0), (1, 0), (0, 1)]) ≤ 0 :=
  ⟨(winding_normalization [(0, 0), (1, 0), (0, 1)] (by decide)).2.1
    (by norm_num [shoelace, edgeTerm, Finset.sum_range_succ]),
   (winding_normalization [(0, 0), (1, 0), (0, 1)] (by decide)).2.2.1⟩

/-- C5 (amended). Both height paths give first priority to a parsed numeric
`height` tag. When it is absent or unparseable, `World::generate` falls back
to `building:levels` times 4 and then to the way-id-derived value
`8 + (id mod 100) * 0.3`, while the streaming loader always falls back to the
constant 20 and never consults `building:levels` or the way id. -/
theorem height_resolution (wayId : ℕ) (tags : List (String × String)) :
    (∀ h : ℚ, heightTagParsed tags = some h →
      worldHeight wayId tags = h ∧ loaderHeight tags = h) ∧
    (heightTagParsed tags = none →
      (∀ l : ℚ, levelsTagParsed tags = some l → worldHeight wayId tags = l * 4) ∧
      (levelsTagParsed tags = none →
        worldHeight wayId tags = 8 + ((wayId % 100 : ℕ) : ℚ) * 0.3) ∧
      loaderHeight tags = 20) := by
  constructor
  · intro h hsome
    constructor
    · simp only [worldHeight, hsome]
    · obtain ⟨s, hs, hp⟩ : ∃ s, lookupTag tags "height" = some s ∧
          parseDecimal (trimMatches s) = some h := by
        cases hl : lookupTag tags "height" with
        | none => simp [heightTagParsed, hl] at hsome
        | some s =>
          refine ⟨s, rfl, ?_⟩
          simpa [heightTagParsed, hl] using hsome
      simp only [loaderHeight, hs, hp]
  · intro hnone
    refine ⟨?_, ?_, ?_⟩
    · intro l hl
      simp only [worldHeight, hnone, hl]
    · intro hlev
      simp only [worldHeight, hnone, hlev]
    · cases hl : lookupTag tags "height" with
      | none => simp only [loaderHeight, hl]
      | some s =>
        have hp : parseDecimal (trimMatches s) = none := by
          have hb := hnone
          simp only [heightTagParsed, hl, Option.some_bind] at hb
          exact hb
        simp only [loaderHeight, hl, hp]

/-- Witness for `height_resolution`: a `height = "30 m"` tag resolves to 30 on
both paths (suffix stripped). -/
theorem height_resolution_witness :
    worldHeight 1 [("height", "30 m")] = 30 ∧ loaderHeight [("height", "30 m")] = 30 :=
  (height_resolution 1 [("height", "30 m")]).1 30 (by
    have hl : lookupTag [("height", "30 m")] "height" = some "30 m" := by decide
    simp only [heightTagParsed, hl, Option.some_bind]
    rw [show trimMatches "30 m" = "30" from by decide]
    unfold parseDecimal
    rw [show "30".data.splitOn '.' = [['3', '0']] from by decide]
    norm_num [show digitsValN ['3', '0'] = 30 from by decide,
              show '3'.isDigit = true from by decide,
              show '0'.isDigit = true from by decide]
    exact fun h => nomatch h)

/-- Counterexample to C5 as stated: a way tagged only `building:levels = 3`
gets height 12 (= 3 x 4) under the claimed priority order, but the streaming
loader ignores `building:levels` and yields its constant default 20. -/
theorem height_levels_ignored_counterexample :
    lookupTag [("building", "yes"), ("building:levels", "3")] "height" = none ∧
    loaderHeight [("building", "yes"), ("building:levels", "3")] = 20 ∧
    worldHeight 5 [("building", "yes"), ("building:levels", "3")] = 12 ∧
    (20 : ℚ) ≠ 12 := by
  have hheight : lookupTag [("building", "yes"), ("building:levels", "3")] "height" = none := by
    decide
  have hlev : lookupTag [("building", "yes"), ("building:levels", "3")] "building:levels"
      = some "3" := by decide
  have hp3 : parseDecimal "3" = some 3 := by
    unfold parseDecimal
    rw [show "3".data.splitOn '.' = [['3']] from by decide]
    norm_num [show digitsValN ['3'] = 3 from by decide,
              show '3'.isDigit = true from by decide]
  refine ⟨hheight, ?_, ?_, by norm_num⟩
  · simp only [loaderHeight, hheight]
  · have h1 : heightTagParsed [("building", "yes"), ("building:levels", "3")] = none := by
      simp only [heightTagParsed, hheight, Option.none_bind]
    have h2 : levelsTagParsed [("building", "yes"), ("building:levels", "3")] = some 3 := by
      simp only [levelsTagParsed, hlev, Option.some_bind, hp3]
    simp only [worldHeight, h1, h2]
    norm_num

lemma stepOnce_lt (r : ℚ) (h : 0 < r) : stepOnce r < r := by
  unfold stepOnce
  have : (0 : ℚ) < min r 0.02 := lt_min h (by norm_num)
  linarith

lemma iterate_stepOnce_zero : ∀ (n : ℕ) (r : ℚ), 0 ≤ r → r ≤ 0.02 * n →
    stepOnce^[n] r = 0 := by
  intro n
  induction n with
  | zero =>
    intro r h0 hle
    have : r = 0 := le_antisymm (by simpa using hle) h0
    simpa [this]
  | succ k ih =>
    intro r h0 hle
    rw [Function.iterate_succ_apply]
    by_cases hsmall : r ≤ 0.02
    · have h1 : stepOnce r = 0 := by
        unfold stepOnce
        rw [min_eq_left hsmall, sub_self]
      rw [h1]
      exact ih 0 le_rfl (by positivity)
    · have h1 : stepOnce r = r - 0.02 := by
        unfold stepOnce
        rw [min_eq_right (le_of_not_le hsmall)]
      rw [h1]
      refine ih (r - 0.02) (by linarith) ?_
      have : (0.02 : ℚ) * (k + 1) = 0.02 * k + 0.02 := by ring
      push_cast at hle ⊢
      linarith

/-- C10. The physics sub-step loop always terminates within 5 iterations:
the clamped frame delta is at most 0.1 seconds, each iteration strictly
decreases the remaining time while it is positive, and after 5 iterations
the remaining time is exactly zero. -/
theorem substep_loop_bound (dtr : ℚ) :
    clampQ dtr 0.0001 0.1 ≤ 0.1 ∧
    stepOnce^[5] (clampQ dtr 0.0001 0.1) = 0 ∧
    (∀ r : ℚ, 0 < r → stepOnce r < r) := by
  have hhi : clampQ dtr 0.0001 0.1 ≤ 0.1 := by
    unfold clampQ
    exact max_le (by norm_num) (min_le_right _ _)
  have hlo : (0 : ℚ) ≤ clampQ dtr 0.0001 0.1 := by
    unfold clampQ
    have : (0 : ℚ) ≤ 0.0001 := by norm_num
    exact this.trans (le_max_left _ _)
  refine ⟨hhi, ?_, fun r hr => stepOnce_lt r hr⟩
  exact iterate_stepOnce_zero 5 _ hlo (by push_cast; linarith)

/-- Witness for `substep_loop_bound` at a concrete frame delta of 0.05 s. -/
theorem substep_loop_bound_witness :
    stepOnce^[5] (clampQ 0.05 0.0001 0.1) = 0 ∧ stepOnce 0.05 < 0.05 :=
  ⟨(substep_loop_bound 0.05).2.1, (substep_loop_bound 0.05).2.2 0.05 (by norm_num)⟩

lemma clampQ_id (d : ℚ) (h1 : 0.0001 ≤ d) (h2 : d ≤ 0.1) :
    clampQ d 0.0001 0.1 = d := by
  unfold clampQ
  rw [min_eq_left h2, max_eq_right h1]

/-- For a delta within one sub-step (d at most 0.02) the loop executes exactly
one sub-step. -/
lemma tickY_single (d : ℚ) (p : PlayerY) (h1 : 0.0001 ≤ d) (h2 : d ≤ 0.02) :
    tickY d p = substepY { y := p.y, vy := p.vy - 35 * d, onGround := p.onGround } d := by
  have hc : clampQ d 0.0001 0.1 = d := clampQ_id d h1 (by linarith)
  unfold tickY
  rw [hc]
  have hm : min d 0.02 = d := min_eq_left h2
  show runSubstepsY 5 d _ = _
  unfold runSubstepsY
  rw [if_pos (by linarith : (0 : ℚ) < d), hm, sub_self]
  unfold runSubstepsY
  rw [if_neg (lt_irrefl 0)]

/-- The settled state is absorbing for single-sub-step ticks. -/
lemma tickY_absorb (d : ℚ) (g : Bool) (h1 : 0.0001 ≤ d) (h2 : d ≤ 0.02) :
    tickY d { y := 1.8, vy := 0, onGround := g } = { y := 1.8, vy := 0, onGround := true } := by
  rw [tickY_single d _ h1 h2]
  unfold substepY
  have hlt : (1.8 : ℚ) + (0 - 35 * d) * d < 1.8 := by nlinarith
  simp only [hlt, if_pos]

lemma tickY_cases (d : ℚ) (p : PlayerY) (h1 : 0.0001 ≤ d) (h2 : d ≤ 0.02) :
    (p.y + (p.vy - 35 * d) * d < 1.8 ∧
      tickY d p = { y := 1.8, vy := 0, onGround := true }) ∨
    (1.8 ≤ p.y + (p.vy - 35 * d) * d ∧
      tickY d p = { y := p.y + (p.vy - 35 * d) * d, vy := p.vy - 35 * d,
                    onGround := false }) := by
  rw [tickY_single d p h1 h2]
  unfold substepY
  by_cases hlt : p.y + (p.vy - 35 * d) * d < 1.8
  · left
    refine ⟨hlt, ?_⟩
    simp only [hlt, if_pos]
  · right
    refine ⟨le_of_not_lt hlt, ?_⟩
    simp only [hlt, if_neg, not_false_iff]

/-- While the player has not yet settled, each tick lowers y by at least
35 d^2 and keeps the velocity at most -35 d. -/
lemma tickY_invariant (d : ℚ) (p : PlayerY) (h1 : 0.0001 ≤ d) (h2 : d ≤ 0.02)
    (hv : p.vy < 0) :
    ∀ k : ℕ, 1 ≤ k →
      (tickY d)^[k] p = { y := 1.8, vy := 0, onGround := true } ∨
      (1.8 ≤ ((tickY d)^[k] p).y ∧
       ((tickY d)^[k] p).y ≤ p.y - 35 * d ^ 2 * k ∧
       ((tickY d)^[k] p).vy ≤ -35 * d) := by
  intro k
  induction k with
  | zero => intro h; omega
  | succ n ih =>
    intro _
    rcases Nat.eq_zero_or_pos n with rfl | hn
    · rw [Function.iterate_one]
      rcases tickY_cases d p h1 h2 with ⟨_, heq⟩ | ⟨hge, heq⟩
      · left; exact heq
      · right
        rw [heq]
        dsimp only
        refine ⟨hge, ?_, by linarith⟩
        push_cast
        nlinarith
    · rw [Function.iterate_succ_apply']
      rcases ih hn with hsettled | ⟨hge, hy, hvy⟩
      · left
        rw [hsettled]
        exact tickY_absorb d true h1 h2
      · set q := (tickY d)^[n] p with hq
        rcases tickY_cases d q h1 h2 with ⟨_, heq⟩ | ⟨hge2, heq⟩
        · left; exact heq
        · right
          rw [heq]
          dsimp only
          refine ⟨hge2, ?_, by linarith⟩
          have hd0 : (0 : ℚ) < d := by linarith
          have hstep : (q.vy - 35 * d) * d ≤ -35 * d ^ 2 := by nlinarith
          push_cast
          nlinarith

lemma tickY_settled_forever (d : ℚ) (p : PlayerY) (h1 : 0.0001 ≤ d) (h2 : d ≤ 0.02)
    (N : ℕ) (hN : (tickY d)^[N] p = { y := 1.8, vy := 0, onGround := true }) :
    ∀ n : ℕ, N ≤ n → (tickY d)^[n] p = { y := 1.8, vy := 0, onGround := true } := by
  intro n hle
  obtain ⟨m, rfl⟩ := Nat.exists_eq_add_of_le hle
  clear hle
  induction m with
  | zero => simpa using hN
  | succ j ihj =>
    have : N + (j + 1) = (N + j) + 1 := by omega
    rw [this, Function.iterate_succ_apply', ihj]
    exact tickY_absorb d true h1 h2

/-- C3 (amended). Per sub-step: if the resulting y is strictly below the
floor constant 1.8 the position snaps to 1.8, vertical velocity zeroes and
on_ground becomes true; otherwise (including y exactly 1.8) the move stands
and on_ground becomes false. Consequently, when each tick's clamped delta is
at most the sub-step size 0.02 (a single sub-step per tick), any initial
downward velocity settles, after enough ticks, at exactly y = 1.8 with zero
vertical velocity and on_ground = true. -/
theorem floor_clamp_behavior :
    (∀ (p : PlayerY) (s : ℚ), p.y + p.vy * s < 1.8 →
      substepY p s = { y := 1.8, vy := 0, onGround := true }) ∧
    (∀ (p : PlayerY) (s : ℚ), ¬(p.y + p.vy * s < 1.8) →
      substepY p s = { y := p.y + p.vy * s, vy := p.vy, onGround := false }) ∧
    (∀ (d : ℚ) (p : PlayerY), 0.0001 ≤ d → d ≤ 0.02 → p.vy < 0 →
      ∃ N : ℕ, ∀ n : ℕ, N ≤ n →
        (tickY d)^[n] p = { y := 1.8, vy := 0, onGround := true }) := by
  refine ⟨?_, ?_, ?_⟩
  · intro p s hlt
    unfold substepY
    simp only [hlt, if_pos]
  · intro p s hlt
    unfold substepY
    simp only [hlt, if_neg, not_false_iff]
  · intro d p h1 h2 hv
    have hd0 : (0 : ℚ) < d := by linarith
    have hc : (0 : ℚ) < 35 * d ^ 2 := by positivity
    set N := (⌈(p.y - 1.8) / (35 * d ^ 2)⌉).toNat + 1 with hNdef
    have hN1 : 1 ≤ N := by omega
    have hbig : p.y - 35 * d ^ 2 * N < 1.8 := by
      have hceil : (p.y - 1.8) / (35 * d ^ 2) ≤ ((⌈(p.y - 1.8) / (35 * d ^ 2)⌉ : ℤ) : ℚ) :=
        Int.le_ceil _
      have htn : ((⌈(p.y - 1.8) / (35 * d ^ 2)⌉ : ℤ) : ℚ) ≤
          (((⌈(p.y - 1.8) / (35 * d ^ 2)⌉).toNat : ℕ) : ℚ) := by
        exact_mod_cast Int.self_le_toNat _
      have hNval : (p.y - 1.8) / (35 * d ^ 2) < (N : ℚ) := by
        push_cast [hNdef]
        linarith
      have := (div_lt_iff₀ hc).mp hNval
      linarith
    have hsettle : (tickY d)^[N] p = { y := 1.8, vy := 0, onGround := true } := by
      rcases tickY_invariant d p h1 h2 hv N hN1 with hs | ⟨hge, hy, _⟩
      · exact hs
      · exact absurd (hge.trans hy) (not_le.mpr hbig)
    exact ⟨N, tickY_settled_forever d p h1 h2 N hsettle⟩

/-- Witness for `floor_clamp_behavior`: a sub-step crossing the floor from
y = 2 with velocity -100 snaps to the settled state. -/
theorem floor_clamp_behavior_witness :
    substepY { y := 2, vy := -100, onGround := false } (1/50)
      = { y := 1.8, vy := 0, onGround := true } :=
  floor_clamp_behavior.1 { y := 2, vy := -100, onGround := false } (1/50) (by norm_num)

/-- Counterexample to C3 as stated: a sub-step whose resulting y is exactly
the floor constant 1.8 ("at" the floor) leaves on_ground = false, because the
source tests `next_pos.y < 1.8` strictly. -/
theorem floor_clamp_boundary_counterexample :
    (substepY { y := 1.8, vy := 0, onGround := false } (1/50)).y = 1.8 ∧
    (substepY { y := 1.8, vy := 0, onGround := false } (1/50)).onGround = false := by
  unfold substepY
  norm_num

/-- Supporting fact for the amendment's single-sub-step restriction: at the
maximal frame delta 0.1 (five sub-steps per tick) even the settled state ends
its tick with on_ground = false, because the sub-steps after the snapping one
land on exactly y = 1.8 and take the non-snapping branch. -/
theorem tickY_multi_substep_ground_false :
    tickY (1/10) { y := 1.8, vy := 0, onGround := true }
      = { y := 1.8, vy := 0, onGround := false } := by
  have hc : clampQ (1/10) 0.0001 0.1 = 1/10 := by
    unfold clampQ
    rw [min_eq_left (by norm_num), max_eq_right (by norm_num)]
  unfold tickY
  rw [hc]
  norm_num [runSubstepsY, substepY]

/-- C2 (amended). For the synthetic 4-node square way tagged
`building=yes, height=30`, the mesh builder emits exactly 2 roof triangles
(6 roof indices), 4 wall quads totalling 16 wall vertices and 24 wall
indices, and 4 WallColliders each of height 30 (the whole chunk - ground quad
included - carries 24 vertices). -/
theorem square_building_mesh_counts :
    loaderHeight [("building", "yes"), ("height", "30")] = 30 ∧
    normalizeWinding squarePts = squarePts ∧
    (earcut squarePts).length = 6 ∧
    (roofPart squareBuilding 4).2.length = 6 ∧
    (wallPart squareBuilding 8).1.length = 16 ∧
    (wallPart squareBuilding 8).2.1.length = 24 ∧
    (wallPart squareBuilding 8).2.2.length = 4 ∧
    (wallPart squareBuilding 8).2.2.all (fun w => w.height == 30) = true ∧
    (build_chunk_geometry [squareBuilding] (8, 8)).vertices.length = 24 ∧
    (build_chunk_geometry [squareBuilding] (8, 8)).walls.length = 4 := by
  have hheight : loaderHeight [("building", "yes"), ("height", "30")] = 30 := by
    have hl : lookupTag [("building", "yes"), ("height", "30")] "height" = some "30" := by
      decide
    have hp30 : parseDecimal (trimMatches "30") = some 30 := by
      rw [show trimMatches "30" = "30" from by decide]
      unfold parseDecimal
      rw [show "30".data.splitOn '.' = [['3', '0']] from by decide]
      norm_num [show digitsValN ['3', '0'] = 30 from by decide,
                show '3'.isDigit = true from by decide,
                show '0'.isDigit = true from by decide]
      exact fun h => nomatch h
    unfold loaderHeight
    rw [hl]
    dsimp only
    rw [hp30]
  have hsl : shoelace squarePts = -200 := by
    norm_num [squarePts, shoelace, edgeTerm, Finset.sum_range_succ]
  have hwind : normalizeWinding squarePts = squarePts := by
    unfold normalizeWinding is_ccw
    rw [hsl]
    norm_num
  have hear : earcut squarePts = [3, 0, 1, 1, 2, 3] := by
    norm_num [squarePts, earcut, earClipLoop, findEar, isEar, ringPt, inTri, cross2,
      shoelace, edgeTerm, Finset.sum_range_succ, List.range_succ, List.find?, List.getD,
      List.all, List.eraseIdx]
  refine ⟨hheight, hwind, by rw [hear]; rfl, ?_, ?_, ?_, ?_, ?_, ?_, ?_⟩
  · simp only [roofPart, List.length_map, show squareBuilding.points = squarePts from rfl,
      hear]
    rfl
  · norm_num [wallPart, wallStep, squareBuilding, squarePts, List.range_succ, List.getD]
  · norm_num [wallPart, wallStep, squareBuilding, squarePts, List.range_succ, List.getD]
  · norm_num [wallPart, wallStep, squareBuilding, squarePts, List.range_succ, List.getD]
  · norm_num [wallPart, wallStep, squareBuilding, squarePts, List.range_succ, List.getD,
      List.all]
  · norm_num [build_chunk_geometry, buildingGeometry, roofPart, wallPart, wallStep,
      squareBuilding, squarePts, List.range_succ, List.getD, earcut, earClipLoop, findEar,
      isEar, ringPt, inTri, cross2, shoelace, edgeTerm, Finset.sum_range_succ, List.find?,
      List.all, List.eraseIdx, CHUNK_SIZE, WORLD_SIZE]
  · norm_num [build_chunk_geometry, buildingGeometry, roofPart, wallPart, wallStep,
      squareBuilding, squarePts, List.range_succ, List.getD, earcut, earClipLoop, findEar,
      isEar, ringPt, inTri, cross2, shoelace, edgeTerm, Finset.sum_range_succ, List.find?,
      List.all, List.eraseIdx, CHUNK_SIZE, WORLD_SIZE]

/-- Counterexample to C2 as stated: the 4 wall quads of the square building
carry 16 wall vertices (4 per quad), not 24; 24 is the whole chunk's vertex
count (4 ground + 4 roof + 16 wall). -/
theorem square_building_wall_vertex_counterexample :
    (wallPart squareBuilding 8).1.length = 16 ∧ (16 : ℕ) ≠ 24 := by
  constructor
  · norm_num [wallPart, wallStep, squareBuilding, squarePts, List.range_succ, List.getD]
  · decide

lemma wallStep_inv (b : RawBuilding) (vbase : ℕ)
    (acc : List Vertex × List ℕ × List WallCollider) (j : ℕ)
    (hw : ∀ w ∈ acc.2.2, wallOk w) (hv : ∀ v ∈ acc.1, vertexNormalOk v) :
    (∀ w ∈ (wallStep b vbase acc j).2.2, wallOk w) ∧
    (∀ v ∈ (wallStep b vbase acc j).1, vertexNormalOk v) := by
  unfold wallStep
  set p1 := b.points.getD j (0, 0) with hp1
  set p2 := b.points.getD ((j + 1) % b.points.length) (0, 0) with hp2
  by_cases hskip : |p1.1 - p2.1| < 1/100 ∧ |p1.2 - p2.2| < 1/100
  · rw [if_pos hskip]
    exact ⟨hw, hv⟩
  · rw [if_neg hskip]
    have hnrm : ((p2.2 - p1.2, 0, -(p2.1 - p1.1)) : ℚ × ℚ × ℚ) ≠ (0, 0, 0) := by
      intro heq
      apply hskip
      rw [Prod.ext_iff, Prod.ext_iff] at heq
      obtain ⟨h1, _, h3⟩ := heq
      dsimp only at h1 h3
      constructor
      · have hz : p1.1 - p2.1 = 0 := by linarith
        rw [hz]
        norm_num
      · have hz : p1.2 - p2.2 = 0 := by linarith
        rw [hz]
        norm_num
    constructor
    · intro w hwmem
      rcases List.mem_append.mp hwmem with h | h
      · exact hw w h
      · simp only [List.mem_singleton] at h
        subst h
        exact hskip
    · intro v hvmem
      rcases List.mem_append.mp hvmem with h | h
      · exact hv v h
      · simp only [List.mem_cons, List.not_mem_nil, or_false] at h
        rcases h with rfl | rfl | rfl | rfl <;> exact hnrm

lemma wallFold_inv (b : RawBuilding) (vbase : ℕ) (js : List ℕ)
    (acc : List Vertex × List ℕ × List WallCollider)
    (hw : ∀ w ∈ acc.2.2, wallOk w) (hv : ∀ v ∈ acc.1, vertexNormalOk v) :
    (∀ w ∈ (js.foldl (wallStep b vbase) acc).2.2, wallOk w) ∧
    (∀ v ∈ (js.foldl (wallStep b vbase) acc).1, vertexNormalOk v) := by
  induction js generalizing acc with
  | nil => exact ⟨hw, hv⟩
  | cons j rest ih =>
    obtain ⟨hw2, hv2⟩ := wallStep_inv b vbase acc j hw hv
    exact ih (wallStep b vbase acc j) hw2 hv2

/-- C7 (amended). The streaming mesh builder's wall loop skips degenerate
edges: every emitted WallCollider's edge fails the near-coincidence test
(both coordinate deltas below 0.01), and every emitted wall vertex - and every
vertex of the building's full geometry, roof included - carries a nonzero
(hence finite after normalization) normal. `World::generate`'s wall loop has
no such check (see the counterexample). -/
theorem wall_emission_guarantees (b : RawBuilding) (vbase : ℕ) :
    (∀ w ∈ (wallPart b vbase).2.2, wallOk w) ∧
    (∀ v ∈ (wallPart b vbase).1, vertexNormalOk v) ∧
    (∀ v ∈ (buildingGeometry b vbase).1, vertexNormalOk v) := by
  obtain ⟨hw, hv⟩ := wallFold_inv b vbase (List.range b.points.length) ([], [], [])
    (by intro w h; exact absurd h (List.not_mem_nil w))
    (by intro v h; exact absurd h (List.not_mem_nil v))
  refine ⟨hw, hv, ?_⟩
  intro v hvmem
  unfold buildingGeometry at hvmem
  dsimp only at hvmem
  rcases List.mem_append.mp hvmem with h | h
  · unfold roofPart at h
    dsimp only at h
    obtain ⟨p, _, rfl⟩ := List.mem_map.mp h
    unfold vertexNormalOk
    simp only [ne_eq, Prod.mk.injEq]
    norm_num
  · obtain ⟨hw2, hv2⟩ := wallFold_inv b (vbase + (roofPart b vbase).1.length)
      (List.range b.points.length) ([], [], [])
      (by intro w hmem; exact absurd hmem (List.not_mem_nil w))
      (by intro x hmem; exact absurd hmem (List.not_mem_nil x))
    exact hv2 v h

/-- Witness for `wall_emission_guarantees`: the first wall collider of a
concrete right triangle footprint has a non-degenerate edge. -/
theorem wall_emission_guarantees_witness :
    wallOk { start := (0, 0), endp := (3, 0), height := 5,
             min_x := -(1/2), max_x := 7/2, min_z := -(1/2), max_z := 1/2 } :=
  (wall_emission_guarantees triBuilding 0).1
    _ (by norm_num [triBuilding, wallPart, wallStep, List.range_succ, List.getD])

/-- Counterexample to C7 as stated: `World::generate`'s wall loop, applied to
a footprint whose first two points coincide, emits a wall quad and a
WallCollider for the zero-length edge: the first emitted vertex's stored
normal is the zero vector (glam's `normalize` returns NaN components there)
and the first collider's endpoints are equal. -/
theorem world_wall_degenerate_counterexample :
    ((worldWallPart degenerateBuilding 0).1.getD 0 defaultVertex).normal = (0, 0, 0) ∧
    ((worldWallPart degenerateBuilding 0).2.2.getD 0 defaultWall).start
      = ((worldWallPart degenerateBuilding 0).2.2.getD 0 defaultWall).endp ∧
    (worldWallPart degenerateBuilding 0).1.length = 8 ∧
    (worldWallPart degenerateBuilding 0).2.2.length = 2 := by
  norm_num [degenerateBuilding, worldWallPart, worldWallStep, List.range_succ, List.getD]

/-- C8 (amended). The frustum built from the all-zero matrix ACCEPTS every
AABB: each of the six extracted planes is `(0,0,0,0)`, whose normalization
divides by zero, so the rejection comparison `distance < 0` is a NaN
comparison and fails for every plane - `intersects_aabb` returns true, never
false. -/
theorem zero_matrix_frustum_accepts (mn mx : ℚ × ℚ × ℚ) :
    Frustum.intersects_aabb (Frustum.from_mat4 zeroMat4) mn mx = true := by
  simp only [Frustum.intersects_aabb, Frustum.from_mat4, zeroMat4]
  norm_num [Plane.behind, Plane.lenSq, List.all]

/-- Counterexample to C8 as stated: a concrete AABB lying entirely behind
where the near plane would be is NOT rejected - the zero-matrix frustum test
returns true, not false. -/
theorem zero_matrix_frustum_counterexample :
    Frustum.intersects_aabb (Frustum.from_mat4 zeroMat4)
      (-100, -100, -100) (-1, -1, -1) ≠ false := by
  simp only [Frustum.intersects_aabb, Frustum.from_mat4, zeroMat4]
  norm_num [Plane.behind, Plane.lenSq, List.all]

lemma callbackMessages_count_done (batchOpt : Option (List ChunkData)) (progress : ℚ)
    (status : String) :
    (callbackMessages batchOpt progress status).count LoaderMessage.done = 0 := by
  unfold callbackMessages
  cases batchOpt <;> split_ifs <;> simp [List.count_append, List.count_cons]

/-- C9. In the complete producer message sequence, `Done` appears exactly
once and is the last message; consuming the whole sequence always leaves the
consumer fully initialized (game state created, loading phase over), even
when zero `BatchLoaded` messages were sent. -/
theorem loader_done_protocol (calls : List (Option (List ChunkData) × ℚ × String)) :
    (producerMessages calls).count LoaderMessage.done = 1 ∧
    (producerMessages calls).getLast? = some LoaderMessage.done ∧
    ((producerMessages calls).foldl processMessage initialConsumer).hasState = true ∧
    ((producerMessages calls).foldl processMessage initialConsumer).loading = false := by
  have hcount : (calls.flatMap (fun c => callbackMessages c.1 c.2.1 c.2.2)).count
      LoaderMessage.done = 0 := by
    induction calls with
    | nil => rfl
    | cons c rest ih =>
      simp only [List.flatMap_cons, List.count_append, ih,
        callbackMessages_count_done]
  refine ⟨?_, ?_, ?_, ?_⟩
  · unfold producerMessages
    rw [List.count_append, hcount]
    rfl
  · unfold producerMessages
    exact List.getLast?_concat _
  · unfold producerMessages
    rw [List.foldl_append]
    rfl
  · unfold producerMessages
    rw [List.foldl_append]
    rfl

lemma mem_intRange (a b k : ℤ) (h1 : a ≤ k) (h2 : k ≤ b) : k ∈ intRange a b := by
  unfold intRange
  simp only [List.mem_map, List.mem_range]
  exact ⟨(k - a).toNat, by omega, by omega⟩

lemma insertAt_dims (g : CollisionGrid) (w : WallCollider) (gx gz : ℤ) :
    (insertAt g w gx gz).width = g.width ∧
    (insertAt g w gx gz).height = g.height ∧
    (insertAt g w gx gz).cell_size = g.cell_size ∧
    (insertAt g w gx gz).offset_x = g.offset_x ∧
    (insertAt g w gx gz).offset_z = g.offset_z ∧
    (insertAt g w gx gz).cells.length = g.cells.length := by
  unfold insertAt
  split_ifs <;> simp [List.length_set]

lemma insertAt_mem (g : CollisionGrid) (w w2 : WallCollider) (gx gz : ℤ) (k : ℕ)
    (h : w ∈ g.cells.getD k []) : w ∈ (insertAt g w2 gx gz).cells.getD k [] := by
  unfold insertAt
  split_ifs with hb
  · dsimp only
    rw [List.getD_eq_getElem?_getD, List.getElem?_set]
    by_cases hk : gz.toNat * g.width + gx.toNat = k
    · rw [if_pos hk]
      by_cases hlt : gz.toNat * g.width + gx.toNat < g.cells.length
      · rw [if_pos hlt, Option.getD_some]
        refine List.mem_append_left _ ?_
        rw [← hk] at h
        exact h
      · exfalso
        rw [← hk, List.getD_eq_getElem?_getD, List.getElem?_eq_none (by omega)] at h
        simp at h
    · rw [if_neg hk]
      rw [List.getD_eq_getElem?_getD] at h
      exact h
  · exact h

lemma insertAt_hit (g : CollisionGrid) (w : WallCollider) (gx gz : ℤ)
    (hb : 0 ≤ gx ∧ gx < (g.width : ℤ) ∧ 0 ≤ gz ∧ gz < (g.height : ℤ))
    (hlen : g.cells.length = g.width * g.height) :
    w ∈ (insertAt g w gx gz).cells.getD (gz.toNat * g.width + gx.toNat) [] := by
  unfold insertAt
  rw [if_pos hb]
  dsimp only
  have hgxn : gx.toNat < g.width := by omega
  have hgzn : gz.toNat < g.height := by omega
  have hidx : gz.toNat * g.width + gx.toNat < g.cells.length := by
    rw [hlen]
    calc gz.toNat * g.width + gx.toNat < gz.toNat * g.width + g.width := by omega
    _ = (gz.toNat + 1) * g.width := by ring
    _ ≤ g.height * g.width := Nat.mul_le_mul_right _ (by omega)
    _ = g.width * g.height := Nat.mul_comm _ _
  rw [List.getD_eq_getElem?_getD, List.getElem?_set, if_pos rfl, if_pos hidx]
  simp

lemma colFold_dims (w : WallCollider) (gx : ℤ) (gzs : List ℤ) :
    ∀ g : CollisionGrid,
      ((gzs.foldl (fun g2 gz => insertAt g2 w gx gz) g).width = g.width ∧
       (gzs.foldl (fun g2 gz => insertAt g2 w gx gz) g).height = g.height ∧
       (gzs.foldl (fun g2 gz => insertAt g2 w gx gz) g).cell_size = g.cell_size ∧
       (gzs.foldl (fun g2 gz => insertAt g2 w gx gz) g).offset_x = g.offset_x ∧
       (gzs.foldl (fun g2 gz => insertAt g2 w gx gz) g).offset_z = g.offset_z ∧
       (gzs.foldl (fun g2 gz => insertAt g2 w gx gz) g).cells.length = g.cells.length) := by
  induction gzs with
  | nil => intro g; exact ⟨rfl, rfl, rfl, rfl, rfl, rfl⟩
  | cons a rest ih =>
    intro g
    have h1 := insertAt_dims g w gx a
    have h2 := ih (insertAt g w gx a)
    simp only [List.foldl_cons]
    exact ⟨h2.1.trans h1.1, h2.2.1.trans h1.2.1, h2.2.2.1.trans h1.2.2.1,
      h2.2.2.2.1.trans h1.2.2.2.1, h2.2.2.2.2.1.trans h1.2.2.2.2.1,
      h2.2.2.2.2.2.trans h1.2.2.2.2.2⟩

lemma colFold_mem (w w2 : WallCollider) (gx : ℤ) (gzs : List ℤ) (k : ℕ) :
    ∀ g : CollisionGrid, w ∈ g.cells.getD k [] →
      w ∈ (gzs.foldl (fun g2 gz => insertAt g2 w2 gx gz) g).cells.getD k [] := by
  induction gzs with
  | nil => intro g h; exact h
  | cons a rest ih =>
    intro g h
    simp only [List.foldl_cons]
    exact ih (insertAt g w2 gx a) (insertAt_mem g w w2 gx a k h)

lemma colFold_hit (w : WallCollider) (gx gz : ℤ) (gzs : List ℤ) (hmem : gz ∈ gzs) :
    ∀ g : CollisionGrid,
      (0 ≤ gx ∧ gx < (g.width : ℤ) ∧ 0 ≤ gz ∧ gz < (g.height : ℤ)) →
      g.cells.length = g.width * g.height →
      w ∈ (gzs.foldl (fun g2 gz2 => insertAt g2 w gx gz2) g).cells.getD
        (gz.toNat * g.width + gx.toNat) [] := by
  induction gzs with
  | nil => intro g _ _; exact absurd hmem (List.not_mem_nil gz)
  | cons a rest ih =>
    intro g hb hlen
    simp only [List.foldl_cons]
    rcases List.mem_cons.mp hmem with rfl | hrest
    · have hdims := insertAt_dims g w gx gz
      refine colFold_mem w w gx rest _ (insertAt g w gx gz) ?_
      exact insertAt_hit g w gx gz hb hlen
    · have hdims := insertAt_dims g w gx a
      have hb2 : 0 ≤ gx ∧ gx < ((insertAt g w gx a).width : ℤ) ∧ 0 ≤ gz ∧
          gz < ((insertAt g w gx a).height : ℤ) := by
        rw [hdims.1, hdims.2.1]
        exact hb
      have hlen2 : (insertAt g w gx a).cells.length =
          (insertAt g w gx a).width * (insertAt g w gx a).height := by
        rw [hdims.1, hdims.2.1, hdims.2.2.2.2.2, hlen]
      have := ih hrest (insertAt g w gx a) hb2 hlen2
      rw [hdims.1] at this
      exact this

lemma rowFold_dims (w : WallCollider) (gzs : List ℤ) (gxs : List ℤ) :
    ∀ g : CollisionGrid,
      ((gxs.foldl (fun g1 gx => gzs.foldl (fun g2 gz => insertAt g2 w gx gz) g1) g).width
          = g.width ∧
       (gxs.foldl (fun g1 gx => gzs.foldl (fun g2 gz => insertAt g2 w gx gz) g1) g).height
          = g.height ∧
       (gxs.foldl (fun g1 gx => gzs.foldl (fun g2 gz => insertAt g2 w gx gz) g1) g).cell_size
          = g.cell_size ∧
       (gxs.foldl (fun g1 gx => gzs.foldl (fun g2 gz => insertAt g2 w gx gz) g1) g).offset_x
          = g.offset_x ∧
       (gxs.foldl (fun g1 gx => gzs.foldl (fun g2 gz => insertAt g2 w gx gz) g1) g).offset_z
          = g.offset_z ∧
       (gxs.foldl (fun g1 gx => gzs.foldl (fun g2 gz => insertAt g2 w gx gz) g1) g).cells.length
          = g.cells.length) := by
  induction gxs with
  | nil => intro g; exact ⟨rfl, rfl, rfl, rfl, rfl, rfl⟩
  | cons a rest ih =>
    intro g
    have h1 := colFold_dims w a gzs g
    have h2 := ih (gzs.foldl (fun g2 gz => insertAt g2 w a gz) g)
    simp only [List.foldl_cons]
    exact ⟨h2.1.trans h1.1, h2.2.1.trans h1.2.1, h2.2.2.1.trans h1.2.2.1,
      h2.2.2.2.1.trans h1.2.2.2.1, h2.2.2.2.2.1.trans h1.2.2.2.2.1,
      h2.2.2.2.2.2.trans h1.2.2.2.2.2⟩

lemma rowFold_mem (w : WallCollider) (gzs gxs : List ℤ) (k : ℕ) :
    ∀ g : CollisionGrid, w ∈ g.cells.getD k [] →
      w ∈ (gxs.foldl (fun g1 gx => gzs.foldl (fun g2 gz => insertAt g2 w gx gz) g1)
        g).cells.getD k [] := by
  induction gxs with
  | nil => intro g h; exact h
  | cons a rest ih =>
    intro g h
    simp only [List.foldl_cons]
    exact ih _ (colFold_mem w w a gzs k g h)

lemma rowFold_hit (w : WallCollider) (gx gz : ℤ) (gxs gzs : List ℤ)
    (hmx : gx ∈ gxs) (hmz : gz ∈ gzs) :
    ∀ g : CollisionGrid,
      (0 ≤ gx ∧ gx < (g.width : ℤ) ∧ 0 ≤ gz ∧ gz < (g.height : ℤ)) →
      g.cells.length = g.width * g.height →
      w ∈ (gxs.foldl (fun g1 gx2 => gzs.foldl (fun g2 gz2 => insertAt g2 w gx2 gz2) g1)
        g).cells.getD (gz.toNat * g.width + gx.toNat) [] := by
  induction gxs with
  | nil => intro g _ _; exact absurd hmx (List.not_mem_nil gx)
  | cons a rest ih =>
    intro g hb hlen
    simp only [List.foldl_cons]
    rcases List.mem_cons.mp hmx with rfl | hrest
    · refine rowFold_mem w gzs rest _ _ ?_
      exact colFold_hit w gx gz gzs hmz g hb hlen
    · have hdims := colFold_dims w a gzs g
      have hb2 : 0 ≤ gx ∧
          gx < (((gzs.foldl (fun g2 gz2 => insertAt g2 w a gz2) g)).width : ℤ) ∧ 0 ≤ gz ∧
          gz < (((gzs.foldl (fun g2 gz2 => insertAt g2 w a gz2) g)).height : ℤ) := by
        rw [hdims.1, hdims.2.1]
        exact hb
      have hlen2 : ((gzs.foldl (fun g2 gz2 => insertAt g2 w a gz2) g)).cells.length =
          ((gzs.foldl (fun g2 gz2 => insertAt g2 w a gz2) g)).width *
          ((gzs.foldl (fun g2 gz2 => insertAt g2 w a gz2) g)).height := by
        rw [hdims.1, hdims.2.1, hdims.2.2.2.2.2, hlen]
      have := ih hrest _ hb2 hlen2
      rw [hdims.1] at this
      exact this

/-- C4. For every WallCollider inserted into a well-formed CollisionGrid
(positive cell size, cell vector of length width x height), every query point
(x, z) inside the collider's padded AABB whose cell index is inside the
grid's bounds gets `get_cell` returning Some bucket containing that collider:
no boundary misses. -/
theorem collision_grid_no_boundary_miss (g : CollisionGrid) (w : WallCollider) (x z : ℚ)
    (hcs : 0 < g.cell_size)
    (hlen : g.cells.length = g.width * g.height)
    (hx1 : w.min_x ≤ x) (hx2 : x ≤ w.max_x)
    (hz1 : w.min_z ≤ z) (hz2 : z ≤ w.max_z)
    (hgx0 : 0 ≤ ⌊(x + g.offset_x) / g.cell_size⌋)
    (hgx1 : ⌊(x + g.offset_x) / g.cell_size⌋ < (g.width : ℤ))
    (hgz0 : 0 ≤ ⌊(z + g.offset_z) / g.cell_size⌋)
    (hgz1 : ⌊(z + g.offset_z) / g.cell_size⌋ < (g.height : ℤ)) :
    ∃ bucket, (g.insert w).get_cell x z = some bucket ∧ w ∈ bucket := by
  set gx := ⌊(x + g.offset_x) / g.cell_size⌋ with hgxdef
  set gz := ⌊(z + g.offset_z) / g.cell_size⌋ with hgzdef
  have hmx : gx ∈ intRange ⌊(w.min_x + g.offset_x) / g.cell_size⌋
      ⌊(w.max_x + g.offset_x) / g.cell_size⌋ := by
    refine mem_intRange _ _ _ ?_ ?_
    · exact Int.floor_le_floor (by gcongr)
    · exact Int.floor_le_floor (by gcongr)
  have hmz : gz ∈ intRange ⌊(w.min_z + g.offset_z) / g.cell_size⌋
      ⌊(w.max_z + g.offset_z) / g.cell_size⌋ := by
    refine mem_intRange _ _ _ ?_ ?_
    · exact Int.floor_le_floor (by gcongr)
    · exact Int.floor_le_floor (by gcongr)
  have hmem := rowFold_hit w gx gz _ _ hmx hmz g ⟨hgx0, hgx1, hgz0, hgz1⟩ hlen
  have hdims := rowFold_dims w
    (intRange ⌊(w.min_z + g.offset_z) / g.cell_size⌋ ⌊(w.max_z + g.offset_z) / g.cell_size⌋)
    (intRange ⌊(w.min_x + g.offset_x) / g.cell_size⌋ ⌊(w.max_x + g.offset_x) / g.cell_size⌋) g
  have hW : (g.insert w).width = g.width := hdims.1
  have hH : (g.insert w).height = g.height := hdims.2.1
  have hCS : (g.insert w).cell_size = g.cell_size := hdims.2.2.1
  have hOX : (g.insert w).offset_x = g.offset_x := hdims.2.2.2.1
  have hOZ : (g.insert w).offset_z = g.offset_z := hdims.2.2.2.2.1
  have hmem2 : w ∈ (g.insert w).cells.getD (gz.toNat * g.width + gx.toNat) [] := hmem
  have hcell : (g.insert w).get_cell x z =
      some ((g.insert w).cells.getD (gz.toNat * (g.insert w).width + gx.toNat) []) := by
    simp only [CollisionGrid.get_cell, hCS, hOX, hOZ, hW, hH]
    rw [← hgxdef, ← hgzdef]
    rw [if_pos ⟨hgx0, hgx1, hgz0, hgz1⟩]
  rw [hW] at hcell
  exact ⟨_, hcell, hmem2⟩

/-- Witness for `collision_grid_no_boundary_miss`: a 2 x 2 world with cell
size 1 (grid dimension 4), querying the wall's midpoint. -/
theorem collision_grid_no_boundary_miss_witness :
    ∃ bucket, ((CollisionGrid.new 2 1).insert witnessWall).get_cell 0 0 = some bucket ∧
      witnessWall ∈ bucket := by
  refine collision_grid_no_boundary_miss (CollisionGrid.new 2 1) witnessWall 0 0
    ?_ ?_ ?_ ?_ ?_ ?_ ?_ ?_ ?_ ?_
  · norm_num [CollisionGrid.new]
  · norm_num [CollisionGrid.new, List.length_replicate]
  · norm_num [witnessWall]
  · norm_num [witnessWall]
  · norm_num [witnessWall]
  · norm_num [witnessWall]
  · norm_num [CollisionGrid.new]
  · norm_num [CollisionGrid.new]
  · norm_num [CollisionGrid.new]
  · norm_num [CollisionGrid.new]

end SkyRoam
